import Mathlib

/-
  Verification development for the data-processing core of the
  cdisc-rules-engine repository (utilities/data_processor.py).

  The embedding models pandas DataFrames as a list of column names plus a
  list of rows (each row a list of cell values), cell values as a tagged
  union of text, exact numbers (pandas floats are modelled by rationals;
  every numeric literal appearing in the claims is exactly representable)
  and nulls.  Fallible operations (KeyError, ValueError, TypeError paths
  in the Python source) return Except or Option.
-/

namespace DataProcessor

/-- A cell value of a tabular dataset: text, a number (pandas ints and
floats are modelled exactly by rationals), or a missing value (NaN). -/
inductive Val where
  | str : String → Val
  | num : Rat → Val
  | null : Val
deriving DecidableEq, Repr

/-- A pandas DataFrame: ordered column names and rows of cells.  The
well-formedness used by some theorems is that every row has exactly one
cell per column. -/
structure DataFrame where
  cols : List String
  rows : List (List Val)
deriving DecidableEq, Repr

/-- Positional lookup of the cell stored under column `k`: walks the
column names and the row cells together, mirroring label-based access
`row[k]` on a frame whose columns are `cols`. -/
def lookupCell : List String → List Val → String → Option Val
  | c :: cs, v :: vs, k => if c = k then some v else lookupCell cs vs k
  | _, _, _ => none

/-- Column extraction `df[c]`: `none` when the column is absent
(pandas raises a KeyError), otherwise the list of cells of that column. -/
def DataFrame.colVals (df : DataFrame) (c : String) : Option (List Val) :=
  if c ∈ df.cols then
    some (df.rows.map (fun r => (lookupCell df.cols r c).getD Val.null))
  else none

/-! ### Date and time arithmetic

`datetime.fromisoformat` / `pd.to_datetime` are modelled for the ISO-8601
subset `YYYY-MM-DD` and `YYYY-MM-DDTHH:MM:SS`, mapping a parsed timestamp
to a count of seconds from the Unix epoch.  Day counts use the standard
civil-calendar conversion. -/

/-- Days from the epoch 1970-01-01 of a civil date (proleptic Gregorian). -/
def daysFromCivil (y m d : Int) : Int :=
  let y2 : Int := if m ≤ 2 then y - 1 else y
  let era : Int := Int.fdiv y2 400
  let yoe : Int := y2 - era * 400
  let mp : Int := if m > 2 then m - 3 else m + 9
  let doy : Int := (153 * mp + 2) / 5 + d - 1
  let doe : Int := yoe * 365 + yoe / 4 - yoe / 100 + doy
  era * 146097 + doe - 719468

/-- Civil date (year, month, day) of a day count from the epoch. -/
def civilFromDays (z0 : Int) : Int × Int × Int :=
  let z := z0 + 719468
  let era := Int.fdiv z 146097
  let doe := z - era * 146097
  let yoe := (doe - doe / 1460 + doe / 36524 - doe / 146096) / 365
  let y := yoe + era * 400
  let doy := doe - (365 * yoe + yoe / 4 - yoe / 100)
  let mp := (5 * doy + 2) / 153
  let d := doy - (153 * mp + 2) / 5 + 1
  let m := if mp < 10 then mp + 3 else mp - 9
  (if m ≤ 2 then y + 1 else y, m, d)

/-- Numeric value of a decimal digit character. -/
def digitVal (c : Char) : Option Nat :=
  if c.isDigit then some (c.toNat - 48) else none

/-- Parses a non-empty all-digit character list as a natural number. -/
def parseDigits (cs : List Char) : Option Nat :=
  match cs with
  | [] => none
  | _ =>
    cs.foldl
      (fun acc c =>
        match acc, digitVal c with
        | some n, some d => some (n * 10 + d)
        | _, _ => none)
      (some 0)

/-- Leap-year test of the Gregorian calendar. -/
def isLeapYear (y : Int) : Bool :=
  y % 4 = 0 && (y % 100 ≠ 0 || y % 400 = 0)

/-- Number of days of month `m` of year `y`. -/
def daysInMonth (y m : Int) : Int :=
  if m = 2 then (if isLeapYear y then 29 else 28)
  else if m = 4 ∨ m = 6 ∨ m = 9 ∨ m = 11 then 30
  else 31

/-- Parses a `YYYY-MM-DD` character list into a valid civil date. -/
def parseISODate (cs : List Char) : Option (Int × Int × Int) :=
  match cs with
  | [y1, y2, y3, y4, s1, m1, m2, s2, d1, d2] =>
    if s1 = '-' ∧ s2 = '-' then
      match parseDigits [y1, y2, y3, y4], parseDigits [m1, m2],
          parseDigits [d1, d2] with
      | some y, some m, some d =>
        if 1 ≤ m ∧ m ≤ 12 ∧ 1 ≤ d ∧ (d : Int) ≤ daysInMonth y m then
          some (y, m, d)
        else none
      | _, _, _ => none
    else none
  | _ => none

/-- Parses an `HH:MM:SS` character list into seconds from midnight. -/
def parseISOTime (cs : List Char) : Option Int :=
  match cs with
  | [h1, h2, s1, m1, m2, s2, q1, q2] =>
    if s1 = ':' ∧ s2 = ':' then
      match parseDigits [h1, h2], parseDigits [m1, m2],
          parseDigits [q1, q2] with
      | some h, some m, some s =>
        if h ≤ 23 ∧ m ≤ 59 ∧ s ≤ 59 then
          some ((h : Int) * 3600 + (m : Int) * 60 + (s : Int))
        else none
      | _, _, _ => none
    else none
  | _ => none

/-- Parses an ISO-8601 timestamp string (`YYYY-MM-DD`, optionally followed
by `THH:MM:SS`) into seconds from the Unix epoch; this is the ISO subset
of `datetime.fromisoformat` / `pd.to_datetime` string parsing exercised by
the engine. -/
def parseISOTimestamp (s : String) : Option Int :=
  let cs := s.toList
  match parseISODate (cs.take 10) with
  | none => none
  | some (y, m, d) =>
    let base := daysFromCivil y m d * 86400
    match cs.drop 10 with
    | [] => some base
    | 'T' :: rest =>
      match parseISOTime rest with
      | some t => some (base + t)
      | none => none
    | _ => none

/-- Zero-padded two-digit rendering of a number in `[0, 99]`. -/
def pad2 (n : Int) : String :=
  if n < 10 then "0" ++ toString n else toString n

/-- Zero-padded four-digit rendering of a year. -/
def pad4 (n : Int) : String :=
  if n < 10 then "000" ++ toString n
  else if n < 100 then "00" ++ toString n
  else if n < 1000 then "0" ++ toString n
  else toString n

/-- ISO-8601 rendering `YYYY-MM-DDTHH:MM:SS` of an epoch-seconds
timestamp, as produced by `Timestamp.isoformat()`. -/
def isoformat (t : Int) : String :=
  let days := Int.fdiv t 86400
  let secs := t - days * 86400
  let c := civilFromDays days
  let hh := secs / 3600
  let mm := (secs - hh * 3600) / 60
  let ss := secs - hh * 3600 - mm * 60
  pad4 c.1 ++ "-" ++ pad2 c.2.1 ++ "-" ++ pad2 c.2.2 ++ "T" ++
    pad2 hh ++ ":" ++ pad2 mm ++ ":" ++ pad2 ss

/-! ### The `dy` operation -/

/-- `datetime.fromisoformat` applied to one cell: only text cells parse;
a non-string cell raises a TypeError in the source. -/
def parseTS : Val → Option Int
  | Val.str s => parseISOTimestamp s
  | _ => none

/-- Maps `datetime.fromisoformat` over a whole column; `none` as soon as
one cell fails to parse (the source lets the exception propagate). -/
def seriesMapTS : List Val → Option (List Int)
  | [] => some []
  | v :: vs =>
    match parseTS v, seriesMapTS vs with
    | some t, some ts => some (t :: ts)
    | _, _ => none

/-- Per-row rule of `dy`: `days` is the (floored) day difference of the
two timestamps; the result is `days` when negative and `days + 1`
otherwise (there is no study day zero). -/
def dyRow (t r : Int) : Int :=
  let d := Int.fdiv (t - r) 86400
  if d < 0 then d else d + 1

/-- The `dy` operation: parses the target column and the `RFSTDTC` column
as timestamps and returns the per-row study-day offsets. -/
def dy (df : DataFrame) (target : String) : Except Unit (List Int) :=
  match df.colVals target, df.colVals "RFSTDTC" with
  | some dtcCol, some rfCol =>
    match seriesMapTS dtcCol, seriesMapTS rfCol with
    | some ts, some rs => .ok (List.zipWith dyRow ts rs)
    | _, _ => .error ()
  | _, _ => .error ()

/-! ### The `min_date` / `max_date` operations -/

/-- `pd.to_datetime` on one cell: missing values and empty strings become
`NaT` (`none`); a non-empty string that does not parse raises (`error`).
Numeric cells (epoch interpretation) are outside the modelled fragment. -/
def toDatetimeCell : Val → Except Unit (Option Int)
  | Val.null => .ok none
  | Val.str s =>
    if s = "" then .ok none
    else
      match parseISOTimestamp s with
      | some t => .ok (some t)
      | none => .error ()
  | Val.num _ => .error ()

/-- `pd.to_datetime` over a column. -/
def toDatetimeSeries : List Val → Except Unit (List (Option Int))
  | [] => .ok []
  | v :: vs =>
    match toDatetimeCell v, toDatetimeSeries vs with
    | .ok t, .ok ts => .ok (t :: ts)
    | _, _ => .error ()

/-- Minimum of a list of integers, `none` when empty. -/
def listMinInt : List Int → Option Int
  | [] => none
  | x :: xs =>
    match listMinInt xs with
    | none => some x
    | some m => some (if x ≤ m then x else m)

/-- Maximum of a list of integers, `none` when empty. -/
def listMaxInt : List Int → Option Int
  | [] => none
  | x :: xs =>
    match listMaxInt xs with
    | none => some x
    | some m => some (if m ≤ x then x else m)

/-- The ungrouped `min_date` operation: parse the target column, take the
minimum over the parsed (non-`NaT`) timestamps, return the empty string
when everything is `NaT` and the ISO rendering otherwise. -/
def min_date (df : DataFrame) (target : String) : Except Unit String :=
  match df.colVals target with
  | none => .error ()
  | some col =>
    match toDatetimeSeries col with
    | .error _ => .error ()
    | .ok ts =>
      match listMinInt (ts.filterMap id) with
      | none => .ok ""
      | some m => .ok (isoformat m)

/-- The ungrouped `max_date` operation, dually. -/
def max_date (df : DataFrame) (target : String) : Except Unit String :=
  match df.colVals target with
  | none => .error ()
  | some col =>
    match toDatetimeSeries col with
    | .error _ => .error ()
    | .ok ts =>
      match listMaxInt (ts.filterMap id) with
      | none => .ok ""
      | some m => .ok (isoformat m)

/-! ### Numeric reconciliation (`column_contains_numeric`,
`cast_numeric_cols_to_same_data_type`)

A pandas Series is modelled at the dtype level: either a numeric column
(int/float dtype, values modelled exactly by rationals) or an object
column of strings.  Mixed-type object columns are outside the modelled
fragment. -/

/-- A pandas Series with its storage type: numeric dtype or object
(string) dtype. -/
inductive Column where
  | numeric : List Rat → Column
  | object : List String → Column
deriving DecidableEq, Repr

/-- Models `Series.str.replace(".", "")` with a literal pattern: removes
every decimal point from the string. -/
def stripDots (s : String) : String :=
  String.mk (s.toList.filter (fun c => c ≠ '.'))

/-- Python `str.isdigit` on the modelled (ASCII) alphabet: non-empty and
all characters decimal digits. -/
def pyIsdigit (s : String) : Bool :=
  !s.toList.isEmpty && s.toList.all Char.isDigit

/-- Source `column_contains_numeric`: a numeric-dtype column is numeric;
an object column is numeric when every value, with decimal points
stripped, consists solely of digits. -/
def column_contains_numeric : Column → Bool
  | Column.numeric _ => true
  | Column.object ss => ss.all (fun s => pyIsdigit (stripDots s))

/-- Parses the digit characters of an unsigned decimal literal
(`digits`, `digits.digits`, `.digits` or `digits.`) as a rational. -/
def parseUnsignedFloat (cs : List Char) : Option Rat :=
  let intPart := cs.takeWhile Char.isDigit
  let rest := cs.dropWhile Char.isDigit
  match rest with
  | [] =>
    match parseDigits intPart with
    | some n => some (n : Rat)
    | none => none
  | '.' :: frac =>
    if frac.all Char.isDigit ∧ (intPart ≠ [] ∨ frac ≠ []) then
      let ip : Nat := (parseDigits intPart).getD 0
      let fp : Nat := (parseDigits frac).getD 0
      some ((ip : Rat) + (fp : Rat) / ((10 : Rat) ^ frac.length))
    else none
  | _ => none

/-- Python `float(s)` on the modelled fragment: optional sign and a
decimal literal. -/
def parseFloat (s : String) : Option Rat :=
  match s.toList with
  | '-' :: rest => (parseUnsignedFloat rest).map Neg.neg
  | '+' :: rest => parseUnsignedFloat rest
  | cs => parseUnsignedFloat cs

/-- `Series.astype(float)`: identity on numeric columns; parses every
string of an object column, failing (ValueError) when one does not parse
as a float. -/
def toFloatColumn : Column → Option (List Rat)
  | Column.numeric xs => some xs
  | Column.object ss => ss.mapM parseFloat

/-- Source `cast_numeric_cols_to_same_data_type`: when both columns
qualify as numeric, both are cast to float (`none` when a qualifying
string still fails `float()`, the propagated ValueError); otherwise both
are returned untouched. -/
def cast_numeric_cols_to_same_data_type (l r : Column) :
    Option (Column × Column) :=
  if column_contains_numeric l && column_contains_numeric r then
    match toFloatColumn r, toFloatColumn l with
    | some rs, some ls => some (Column.numeric ls, Column.numeric rs)
    | _, _ => none
  else some (l, r)

/-! ### Generic list helpers shared by the relational operations -/

/-- First-occurrence deduplication, as `Series.unique()` returns values
in order of first appearance. -/
def uniqueList {α : Type} [DecidableEq α] (l : List α) : List α :=
  l.foldl (fun acc v => if v ∈ acc then acc else acc ++ [v]) []

/-- Inserts into a `le`-sorted list, after existing equal elements. -/
def insertSortedBy {α : Type} (le : α → α → Bool) (x : α) :
    List α → List α
  | [] => [x]
  | y :: ys =>
    if le y x then y :: insertSortedBy le x ys else x :: y :: ys

/-- Insertion sort by a boolean comparison. -/
def sortListBy {α : Type} (le : α → α → Bool) (l : List α) : List α :=
  l.foldr (insertSortedBy le) []

/-- Lexicographic comparison of character lists by code point. -/
def strLeAux : List Char → List Char → Bool
  | [], _ => true
  | _ :: _, [] => false
  | a :: as, b :: bs =>
    if a = b then strLeAux as bs else decide (a.toNat < b.toNat)

/-- Lexicographic string comparison by code point. -/
def strLe (x y : String) : Bool := strLeAux x.toList y.toList

/-- Total comparison on cell values used for sorting: nulls first, then
numbers by value, then strings lexicographically (pandas sorts only
homogeneous columns; the cross-kind cases are arbitrary tie-breaks). -/
def valLe : Val → Val → Bool
  | Val.null, _ => true
  | _, Val.null => false
  | Val.num a, Val.num b => a ≤ b
  | Val.num _, Val.str _ => true
  | Val.str _, Val.num _ => false
  | Val.str a, Val.str b => strLe a b

/-- Lexicographic comparison of cell-value tuples. -/
def listValLe : List Val → List Val → Bool
  | [], _ => true
  | _ :: _, [] => false
  | a :: as, b :: bs => if a = b then listValLe as bs else valLe a b

/-! ### `filter_dataset_by_match_keys_of_other_dataset` -/

/-- Column names that are not match keys, in original order (the columns
that stay behind when `set_index` removes the key columns). -/
def restCols (keys : List String) : List String → List String
  | [] => []
  | c :: cs =>
    if c ∈ keys then restCols keys cs else c :: restCols keys cs

/-- Cells of a row that do not belong to key columns. -/
def dropKeyCells (keys : List String) : List String → List Val → List Val
  | c :: cs, v :: vs =>
    if c ∈ keys then dropKeyCells keys cs vs
    else v :: dropKeyCells keys cs vs
  | _, _ => []

/-- Effect of `set_index(keys)` followed by `reset_index()` on one row:
the key cells move to the front (in key-list order), the remaining cells
keep their relative order. -/
def reorderRow (keys cols : List String) (r : List Val) : List Val :=
  keys.map (fun k => (lookupCell cols r k).getD Val.null) ++
    dropKeyCells keys cols r

/-- The match-key tuple of a row, the row's value under the (multi-)index
built from `keys`. -/
def matchTuple (cols : List String) (r : List Val) (keys : List String) :
    List (Option Val) :=
  keys.map (lookupCell cols r)

/-- Source `filter_dataset_by_match_keys_of_other_dataset`: keeps the
rows of `dataset` whose match-key tuple appears among the match-key
tuples of `other_dataset` (`set_index` / `isin` / boolean mask), then
`reset_index` moves the key columns to the front.  `none` models the
KeyError of `set_index` on a missing key column. -/
def filter_dataset_by_match_keys_of_other_dataset (dataset : DataFrame)
    (dataset_match_keys : List String) (other_dataset : DataFrame)
    (other_dataset_match_keys : List String) : Option DataFrame :=
  if dataset_match_keys.all (fun k => decide (k ∈ dataset.cols)) &&
      other_dataset_match_keys.all
        (fun k => decide (k ∈ other_dataset.cols)) then
    let kept := dataset.rows.filter (fun r =>
      other_dataset.rows.any (fun s =>
        decide (matchTuple dataset.cols r dataset_match_keys =
          matchTuple other_dataset.cols s other_dataset_match_keys)))
    some ⟨dataset_match_keys ++ restCols dataset_match_keys dataset.cols,
      kept.map (reorderRow dataset_match_keys dataset.cols)⟩
  else none

/-! ### `filter_dataset_by_nested_columns_of_other_dataset` -/

/-- `astype(float)` on one cell: numbers are kept, strings are parsed by
`float()`, missing values do not convert in the modelled fragment. -/
def ratOfVal : Val → Option Rat
  | Val.num q => some q
  | Val.str s => parseFloat s
  | Val.null => none

/-- Option-to-Except coercion for propagated exceptions. -/
def optToExcept {α : Type} : Option α → Except Unit α
  | some a => .ok a
  | none => .error ()

/-- Rows of `dataset` kept by one group of the nested-columns filter: the
group of `other_dataset` rows whose name-column value is `k` selects the
`dataset` rows whose value in the column named `k` is, after float
coercion on both sides, a member of the group's value set. -/
def nestedGroupFilter (dataset : DataFrame) (names vals : List Val)
    (k : Val) : Except Unit (List (List Val)) := do
  let groupVals := (names.zip vals).filterMap
    (fun p => if p.1 = k then some p.2 else none)
  let groupRats ← optToExcept (groupVals.mapM ratOfVal)
  match k with
  | Val.str kname =>
    match dataset.colVals kname with
    | some dsCol => do
      let dsRats ← optToExcept (dsCol.mapM ratOfVal)
      .ok ((dataset.rows.zip dsRats).filterMap
        (fun p => if p.2 ∈ groupRats then some p.1 else none))
    | none => .error ()
  | _ => .error ()

/-- Sorts rows by the named columns, lexicographically (the
`sort_values(list(grouped.groups.keys()))` step). -/
def sortRowsByCols (cols sortKeys : List String)
    (rows : List (List Val)) : List (List Val) :=
  sortListBy
    (fun r1 r2 =>
      listValLe
        (sortKeys.map (fun c => (lookupCell cols r1 c).getD Val.null))
        (sortKeys.map (fun c => (lookupCell cols r2 c).getD Val.null)))
    rows

/-- Source `filter_dataset_by_nested_columns_of_other_dataset`: groups
`other_dataset` by the name column (group keys in sorted order, as
`groupby` sorts), applies each group's value filter to the original
`dataset`, and — as `GroupBy.apply` does with frame-valued results —
concatenates the per-group results before re-sorting them by the
key-named columns. -/
def filter_dataset_by_nested_columns_of_other_dataset
    (dataset other_dataset : DataFrame)
    (column_with_names column_with_values : String) :
    Except Unit DataFrame :=
  match other_dataset.colVals column_with_names,
      other_dataset.colVals column_with_values with
  | some names, some vals =>
    let keys := sortListBy valLe (uniqueList names)
    match keys.mapM (nestedGroupFilter dataset names vals) with
    | .error _ => .error ()
    | .ok parts =>
      let sortKeys := keys.filterMap
        (fun k => match k with | Val.str s => some s | _ => none)
      .ok ⟨dataset.cols,
        sortRowsByCols dataset.cols sortKeys parts.flatten⟩
  | _, _ => .error ()

/-- Modelled from the spec (the indirection-resolution step of §4.4,
and the function's own docstring): a parent row is kept only if, for
EVERY group of child rows sharing one name-column value, the parent
row's float-coerced value in that named column is a member of that
group's float-coerced value set — the conjunctive reading the claim
asserts, stated as a second definition to compare with the one embedded
from the source. -/
def conjunctiveNestedFilterSpec (dataset other_dataset : DataFrame)
    (column_with_names column_with_values : String) :
    Except Unit DataFrame :=
  match other_dataset.colVals column_with_names,
      other_dataset.colVals column_with_values with
  | some names, some vals =>
    let keys := sortListBy valLe (uniqueList names)
    let rowOk := fun (r : List Val) =>
      keys.all (fun k =>
        match k with
        | Val.str kname =>
          let groupVals := (names.zip vals).filterMap
            (fun p => if p.1 = k then some p.2 else none)
          match (lookupCell dataset.cols r kname).bind ratOfVal,
              groupVals.mapM ratOfVal with
          | some x, some gs => decide (x ∈ gs)
          | _, _ => false
        | _ => false)
    .ok ⟨dataset.cols, dataset.rows.filter rowOk⟩
  | _, _ => .error ()

/-! ### `merge_datasets_on_relationship_columns` -/

/-- Replaces the cell stored under column `k` of one row. -/
def setCell : List String → List Val → String → Val → List Val
  | c :: cs, v :: vs, k, nv =>
    if c = k then nv :: vs else v :: setCell cs vs k nv
  | _, vs, _, _ => vs

/-- Writes a whole column of values back into a frame, positionally. -/
def dfSetCol (df : DataFrame) (c : String) (vals : List Val) :
    DataFrame :=
  ⟨df.cols, (df.rows.zip vals).map (fun p => setCell df.cols p.1 c p.2)⟩

/-- Storage-typed view of a frame column: numeric dtype when every cell
is a number, object dtype when every cell is a string; mixed columns are
outside the modelled fragment. -/
def toColumn (vals : List Val) : Option Column :=
  if vals.all (fun v => match v with | Val.num _ => true | _ => false)
  then
    some (Column.numeric (vals.filterMap
      (fun v => match v with | Val.num q => some q | _ => none)))
  else if vals.all
      (fun v => match v with | Val.str _ => true | _ => false) then
    some (Column.object (vals.filterMap
      (fun v => match v with | Val.str s => some s | _ => none)))
  else none

/-- Cell values of a storage-typed column. -/
def columnToVals : Column → List Val
  | Column.numeric xs => xs.map Val.num
  | Column.object ss => ss.map Val.str

/-- `cast_numeric_cols_to_same_data_type` acting on two frame columns
(the in-place mutation of both frames is modelled by returning the two
updated frames). -/
def dfCastNumericCols (a : DataFrame) (acol : String) (b : DataFrame)
    (bcol : String) : Option (DataFrame × DataFrame) := do
  let va ← a.colVals acol
  let vb ← b.colVals bcol
  let ca ← toColumn va
  let cb ← toColumn vb
  let cast ← cast_numeric_cols_to_same_data_type ca cb
  some (dfSetCol a acol (columnToVals cast.1),
    dfSetCol b bcol (columnToVals cast.2))

/-- Full outer join of two frames on one key column of each side.
Overlapping column names of the right frame receive the suffix.  Row
order is modelled as matched-or-null-padded left rows (in left order,
each with its matching right rows) followed by the unmatched right rows;
claims about the merge do not depend on pandas' key-sorted row order. -/
def outerJoin (left right : DataFrame) (lkey rkey : String)
    (sfx : String) : DataFrame :=
  let rcols2 := right.cols.map
    (fun c => if c ∈ left.cols then c ++ sfx else c)
  let matchRow := fun (l r : List Val) =>
    decide (lookupCell left.cols l lkey = lookupCell right.cols r rkey)
  let leftPart := (left.rows.map (fun l =>
    let ms := right.rows.filter (matchRow l)
    if ms.isEmpty then
      [l ++ List.replicate right.cols.length Val.null]
    else ms.map (fun r => l ++ r))).flatten
  let rightPart := (right.rows.filter
      (fun r => !(left.rows.any (fun l => matchRow l r)))).map
    (fun r => List.replicate left.cols.length Val.null ++ r)
  ⟨left.cols ++ rcols2, leftPart ++ rightPart⟩

/-- Source `merge_datasets_on_relationship_columns`: reads the parent
join column name from ROW 0 of the child's name column
(`right_dataset[column_with_names][0]`), applies the numeric
reconciliation to the child's value column and that parent column, and
outer-joins on the pair, suffixing overlapping names with the child
domain. -/
def merge_datasets_on_relationship_columns
    (left_dataset right_dataset : DataFrame)
    (right_dataset_domain_name column_with_names column_with_values :
      String) : Except Unit DataFrame :=
  match right_dataset.colVals column_with_names with
  | none => .error ()
  | some namesVals =>
    match namesVals.head? with
    | none => .error ()
    | some (Val.str left_ds_col_name) =>
      match dfCastNumericCols right_dataset column_with_values
          left_dataset left_ds_col_name with
      | none => .error ()
      | some cast =>
        .ok (outerJoin cast.2 cast.1 left_ds_col_name column_with_values
          ("." ++ right_dataset_domain_name))
    | some _ => .error ()

/-! ### Whole-study scans (`get_all_study_variables`,
`get_dataset_variable_value_count`,
`get_all_study_variable_value_counts`) -/

/-- A study dataset descriptor: its domain code and its file name. -/
structure DatasetInfo where
  domain : String
  filename : String
deriving DecidableEq, Repr

/-- Modelled from the spec: a split dataset is one logical domain
physically stored across multiple files (`is_split_dataset` lives in
`utilities/utils.py`, outside the provided sources). -/
def is_split_dataset (datasets : List DatasetInfo) (domain : String) :
    Bool :=
  2 ≤ (datasets.filter (fun d => decide (d.domain = domain))).length

/-- Modelled from the spec: the descriptors of every physical file of
one domain (`get_corresponding_datasets`, outside the provided
sources). -/
def get_corresponding_datasets (datasets : List DatasetInfo)
    (domain : String) : List DatasetInfo :=
  datasets.filter (fun d => decide (d.domain = domain))

/-- Modelled from the spec: split files of one logical domain are
logically joined before counting (`DataService.join_split_datasets`,
an external collaborator): the rows are concatenated under the first
file's columns. -/
def join_split_datasets (loader : String → DataFrame)
    (files : List String) : DataFrame :=
  match files.map loader with
  | [] => ⟨[], []⟩
  | d :: ds => ⟨d.cols, ((d :: ds).map DataFrame.rows).flatten⟩

/-- Does the first character list start with the second? -/
def charsStartWith : List Char → List Char → Bool
  | _, [] => true
  | [], _ :: _ => false
  | c :: cs, p :: ps => c = p && charsStartWith cs ps

/-- Replaces the first occurrence of the pattern, as
`str.replace(pat, rep, 1)`. -/
def replaceFirstAux (pat rep : List Char) : List Char → List Char
  | [] => []
  | c :: cs =>
    if charsStartWith (c :: cs) pat then rep ++ (c :: cs).drop pat.length
    else c :: replaceFirstAux pat rep cs

/-- `target.replace("--", domain, 1)`-style first-occurrence
replacement. -/
def replaceFirst (s pat rep : String) : String :=
  String.mk (replaceFirstAux pat.toList rep.toList s.toList)

/-- `collections.Counter` over a list of values, as a value-to-count
mapping. -/
def counterOf (l : List Val) : Val → Nat := fun v => l.count v

/-- Source `get_dataset_variable_value_count`: loads the domain's data
(joining split files), resolves the `--` domain placeholder in the
target name, and — as the source does — counts over the column's UNIQUE
values, so every present value gets count 1 from this domain. -/
def get_dataset_variable_value_count (target study_path : String)
    (datasets : List DatasetInfo) (dataset : DatasetInfo)
    (getDataset : String → DataFrame) : Val → Nat :=
  let data :=
    if is_split_dataset datasets dataset.domain then
      join_split_datasets getDataset
        ((get_corresponding_datasets datasets dataset.domain).map
          (fun d => study_path ++ "/" ++ d.filename))
    else getDataset (study_path ++ "/" ++ dataset.filename)
  let target_variable := replaceFirst target "--" dataset.domain
  match data.colVals target_variable with
  | some col => counterOf (uniqueList col)
  | none => fun _ => 0

/-- Pointwise sum of two counters (`Counter.__add__`; counts here are
naturals, so the positive-count filtering of Python's `+` only affects
key presence, which the mapping view absorbs). -/
def addCounter (a b : Val → Nat) : Val → Nat := fun v => a v + b v

/-- The merge step of the value-count scan: `sum(counters, Counter())`,
a left fold of counter addition. -/
def sumCounters (cs : List (Val → Nat)) : Val → Nat :=
  cs.foldl addCounter (fun _ => 0)

/-- One descriptor per distinct domain, mirroring the Python dict
comprehension: first-occurrence order of the domain, last descriptor per
domain wins. -/
def datasetsWithUniqueDomains (datasets : List DatasetInfo) :
    List DatasetInfo :=
  (uniqueList (datasets.map DatasetInfo.domain)).filterMap
    (fun d =>
      (datasets.filter (fun x => decide (x.domain = d))).getLast?)

/-- Source `get_all_study_variable_value_counts`: one count per distinct
domain, merged by counter summation. -/
def get_all_study_variable_value_counts (target study_path : String)
    (getDataset : String → DataFrame) (datasets : List DatasetInfo) :
    Val → Nat :=
  sumCounters ((datasetsWithUniqueDomains datasets).map
    (fun d => get_dataset_variable_value_count target study_path
      datasets d getDataset))

/-- The merge step of the variable scan: `set().union(*sets)`, a fold of
set union. -/
def mergeVariableSets (sets : List (Finset String)) : Finset String :=
  sets.foldl (· ∪ ·) ∅

/-- Source `get_all_study_variables`: the union of the column-name sets
of every dataset file. -/
def get_all_study_variables (study_path : String)
    (getDataset : String → DataFrame) (datasets : List DatasetInfo) :
    Finset String :=
  mergeVariableSets (datasets.map (fun d =>
    ((getDataset (study_path ++ "/" ++ d.filename)).cols).toFinset))

/-! ### MedDRA validity operations and their cache -/

/-- Modelled from the spec: a MedDRA term tree is summarised by its
complete five-level ancestor chains of codes (the raw term tree and
`MedDRATerm` live outside the provided sources). -/
structure MedDRACodeChain where
  soc : String
  hlgt : String
  hlt : String
  pt : String
  llt : String
deriving DecidableEq, Repr

/-- Modelled from the spec: the parsed term tree of one dictionary
path. -/
def TermTree : Type := List MedDRACodeChain

/-- Modelled from the spec: `MedDRATerm.get_code_hierarchies` builds the
set of "/"-joined ancestor-code chains across the five standard
levels. -/
def get_code_hierarchies (t : TermTree) : List String :=
  t.map (fun c =>
    String.intercalate "/" [c.soc, c.hlgt, c.hlt, c.pt, c.llt])

/-- A cached value: either a parsed term tree (stored under the
dictionary path) or a derived hierarchy index (stored under the
per-index cache key). -/
inductive CacheVal where
  | tree : TermTree → CacheVal
  | hier : List String → CacheVal

/-- Modelled from the spec: the CacheFacade, a process-global key/value
store with `get` and unconditionally-overwriting `add`. -/
def Cache : Type := String → Option CacheVal

/-- `cache.add(key, value)`: unconditional overwrite. -/
def cacheAdd (c : Cache) (k : String) (v : CacheVal) : Cache :=
  fun k2 => if k2 = k then some v else c k2

/-- Modelled from the spec: the code-variable suffixes of the five
positionally-fixed MedDRA hierarchy levels (the `MedDRAVariables` enum
lives outside the provided sources). -/
def codeVariables : List String :=
  ["SOCCD", "HLGTCD", "HLTCD", "PTCD", "LLTCD"]

/-- `df[cols].agg("/".join, axis=1)` on one row: every addressed cell
must exist and be a string. -/
def rowJoinCells (cols dfcols : List String) (r : List Val) :
    Option String :=
  (cols.mapM (fun c =>
    match lookupCell dfcols r c with
    | some (Val.str s) => some s
    | _ => none)).map (String.intercalate "/")

/-- `df[cols].agg("/".join, axis=1)` over the frame; `error` models the
KeyError/TypeError on a missing column or non-string cell. -/
def aggJoinStr (df : DataFrame) (cols : List String) :
    Except Unit (List String) :=
  match df.rows.mapM (rowJoinCells cols df.cols) with
  | some out => .ok out
  | none => .error ()

/-- `params.dataframe[column] = series`: appends a new column to the
caller's frame. -/
def dfAddCol (df : DataFrame) (c : String) (vals : List Val) :
    DataFrame :=
  ⟨df.cols ++ [c], (df.rows.zip vals).map (fun p => p.1 ++ [p.2])⟩

/-- Observable outcome of one `valid_meddra_code_references` call: the
returned boolean series (or the propagated exception), the caller's
dataframe afterwards, the cache afterwards, and whether this call built
the derived index from the term tree. -/
structure MeddraOpResult where
  result : Except Unit (List Bool)
  dataframe : DataFrame
  cache : Cache
  didBuild : Bool

/-- Tail of `valid_meddra_code_references` after the hierarchy set is at
hand: build the row-wise "/"-joined key in a fresh synthetic column on
the caller's frame and test set membership.  The synthetic column is
appended and never removed. -/
def meddraContinue (df : DataFrame) (code_strings : List String)
    (fresh : String) (hs : List String) (cache : Cache)
    (built : Bool) : MeddraOpResult :=
  let colName := fresh ++ "_codes"
  match aggJoinStr df code_strings with
  | .error _ => ⟨.error (), df, cache, built⟩
  | .ok joined =>
    ⟨.ok (joined.map (fun s => decide (s ∈ hs))),
      dfAddCol df colName (joined.map Val.str), cache, built⟩

/-- Source `valid_meddra_code_references`: fails without a dictionary
path; looks the derived code-hierarchy index up in the cache, treating a
falsy (absent or EMPTY) cached value as a miss, in which case it rebuilds
the index from the cached term tree and stores it; then tests each row's
composite code path for membership.  `fresh` stands for the
`uuid4()`-generated collision-free synthetic column stem. -/
def valid_meddra_code_references (df : DataFrame) (domain : String)
    (meddra_path : Option String) (cache : Cache) (fresh : String) :
    MeddraOpResult :=
  match meddra_path with
  | none => ⟨.error (), df, cache, false⟩
  | some path =>
    let code_strings := codeVariables.map (fun v2 => domain ++ v2)
    let cache_key := "meddra_valid_code_hierarchies_" ++ path
    let cachedOpt : Option (List String) :=
      match cache cache_key with
      | some (CacheVal.hier hs) => if hs.isEmpty then none else some hs
      | _ => none
    match cachedOpt with
    | some hs => meddraContinue df code_strings fresh hs cache false
    | none =>
      match cache path with
      | some (CacheVal.tree t) =>
        let hs := get_code_hierarchies t
        meddraContinue df code_strings fresh hs
          (cacheAdd cache cache_key (CacheVal.hier hs)) true
      | _ => ⟨.error (), df, cache, false⟩

/-! ### Concrete inputs used by the claim theorems and witnesses -/

/-- Parent (EC-domain) frame with one row: ECSEQ = 100, ECNUM = 1. -/
def c1Parent : DataFrame := ⟨["ECSEQ", "ECNUM"], [[.num 100, .num 1]]⟩

/-- Relationship frame naming two parent columns: ECSEQ must be 100 and
ECNUM must be 105 (the docstring's own example shape). -/
def c1Supp : DataFrame :=
  ⟨["IDVAR", "IDVARVAL"],
   [[.str "ECSEQ", .str "100"], [.str "ECNUM", .str "105"]]⟩

/-- An AE-domain frame in which the value "A" occurs twice in AESEQ. -/
def c2Data : DataFrame := ⟨["AESEQ"], [[.str "A"], [.str "A"]]⟩

/-- Study data service returning the AE frame for every path. -/
def c2Loader : String → DataFrame := fun _ => c2Data

/-- A study consisting of the single AE dataset file. -/
def c2Datasets : List DatasetInfo := [⟨"AE", "ae.xpt"⟩]

/-- AE frame carrying the five MedDRA code columns with one row. -/
def c3DF : DataFrame :=
  ⟨["AESOCCD", "AEHLGTCD", "AEHLTCD", "AEPTCD", "AELLTCD"],
   [[.str "10", .str "20", .str "30", .str "40", .str "50"]]⟩

/-- A term tree with the single code chain 10/20/30/40/50. -/
def c3Tree : TermTree := [⟨"10", "20", "30", "40", "50"⟩]

/-- A cache holding only the parsed term tree under the dictionary
path. -/
def c3Cache : Cache := cacheAdd (fun _ => none) "meddra" (.tree c3Tree)

/-- A cache holding an EMPTY term tree under the dictionary path. -/
def c9Cache : Cache := cacheAdd (fun _ => none) "meddra" (.tree [])

/-- First validity call against the empty term tree. -/
def c9Run1 : MeddraOpResult :=
  valid_meddra_code_references c3DF "AE" (some "meddra") c9Cache "u1"

/-- Second validity call, on the cache the first call left behind. -/
def c9Run2 : MeddraOpResult :=
  valid_meddra_code_references c3DF "AE" (some "meddra") c9Run1.cache
    "u2"

/-- A cache already holding a non-empty derived code-hierarchy index for
the dictionary path "meddra". -/
def c9WCache : Cache :=
  cacheAdd (fun _ => none) "meddra_valid_code_hierarchies_meddra"
    (.hier ["10/20/30/40/50"])

/-- Frame for the `dy` witness: rows on, one day before, and two days
after the reference start date. -/
def c4DF : DataFrame :=
  ⟨["AESTDTC", "RFSTDTC"],
   [[.str "2020-03-05", .str "2020-03-05"],
    [.str "2020-03-04", .str "2020-03-05"],
    [.str "2020-03-07", .str "2020-03-05"]]⟩

/-- A date column whose only value is a non-empty unparseable string. -/
def c6BadDF : DataFrame := ⟨["AESTDTC"], [[.str "garbage"]]⟩

/-- A date column of absent values only. -/
def c6NullDF : DataFrame := ⟨["AESTDTC"], [[.null], [.str ""]]⟩

/-- A date column with two parseable dates and one absent value. -/
def c6GoodDF : DataFrame :=
  ⟨["AESTDTC"],
   [[.str "2020-01-02"], [.str "2020-01-01"], [.null]]⟩

/-- Dataset for the match-key filter witness: two subjects of domain
AE. -/
def c7DS : DataFrame :=
  ⟨["DOMAIN", "USUBJID"],
   [[.str "AE", .str "S1"], [.str "AE", .str "S9"]]⟩

/-- Other dataset holding the single subject S9. -/
def c7Other : DataFrame := ⟨["USUBJID"], [[.str "S9"]]⟩

/-- Output of the match-key filter on the witness frames: only S9
survives, with the key column moved to the front by `reset_index`. -/
def c7Out : DataFrame :=
  ⟨["USUBJID", "DOMAIN"], [[.str "S9", .str "AE"]]⟩

/-- Parent frame for the merge witness: one subject with numeric
AESEQ. -/
def c10Left : DataFrame := ⟨["USUBJID", "AESEQ"], [[.str "S1", .num 1]]⟩

/-- Child frame whose name column holds TWO distinct parent column
names, with text-typed values. -/
def c10Right : DataFrame :=
  ⟨["IDVAR", "IDVARVAL"],
   [[.str "AESEQ", .str "1"], [.str "USUBJID", .str "2"]]⟩

/-- The merge output on the witness frames: joined on AESEQ (the row-0
name) alone, after both sides were coerced to floats. -/
def c10Out : DataFrame :=
  ⟨["USUBJID", "AESEQ", "IDVAR", "IDVARVAL"],
   [[.str "S1", .num 1, .str "AESEQ", .num 1],
    [.null, .null, .str "USUBJID", .num 2]]⟩

deriving instance DecidableEq for Except

/-! ## Claim theorems -/

/-- C1: the indirection-resolution step does NOT combine the per-group
filters conjunctively.  On a parent row with ECSEQ = 100 and ECNUM = 1
and a child with groups ECSEQ → {100} and ECNUM → {105}, the parent row
violates the ECNUM group's constraint, yet the filter returns it —
`GroupBy.apply` concatenates the per-group filterings of the ORIGINAL
dataset, yielding any-match union semantics, while the conjunctive
semantics of the claim (and of the function's own docstring) would
return no rows. -/
theorem C1_nested_filter_is_union_not_conjunction :
    filter_dataset_by_nested_columns_of_other_dataset c1Parent c1Supp
        "IDVAR" "IDVARVAL" =
      .ok ⟨["ECSEQ", "ECNUM"], [[.num 100, .num 1]]⟩ ∧
    conjunctiveNestedFilterSpec c1Parent c1Supp "IDVAR" "IDVARVAL" =
      .ok ⟨["ECSEQ", "ECNUM"], []⟩ := by
  decide

/-- C2: `variable_value_count` counts each value at most once per
domain, not once per occurrence: on a study whose single AE dataset
holds the value "A" twice in AESEQ, the study-wide count of "A" is 1,
although the value occurs 2 times — the source counts over
`Series.unique()`. -/
theorem C2_value_count_counts_once_per_domain :
    get_all_study_variable_value_counts "AESEQ" "study" c2Loader
        c2Datasets (Val.str "A") = 1 ∧
    (c2Loader "study/ae.xpt").colVals "AESEQ" =
      some [.str "A", .str "A"] ∧
    [Val.str "A", Val.str "A"].count (Val.str "A") = 2 := by
  decide

/-- C3: the synthetic row-wise key column added by
`valid_meddra_code_references` is never removed: after a successful call
the caller's frame has gained the uuid-stem "_codes" column, so the
column set after the call differs from the column set before it. -/
theorem C3_synthetic_column_left_behind :
    c3DF.cols = ["AESOCCD", "AEHLGTCD", "AEHLTCD", "AEPTCD",
      "AELLTCD"] ∧
    (valid_meddra_code_references c3DF "AE" (some "meddra") c3Cache
        "u").dataframe.cols =
      ["AESOCCD", "AEHLGTCD", "AEHLTCD", "AEPTCD", "AELLTCD",
        "u_codes"] ∧
    (valid_meddra_code_references c3DF "AE" (some "meddra") c3Cache
        "u").result = .ok [true] := by
  decide

/-- C5 counterexample: both columns qualify as numeric by the
digit-stripping rule, yet the cast does not convert them to float — the
qualifying value "1.2.3" makes `astype(float)` raise instead. -/
theorem C5_qualifying_pair_can_fail_conversion :
    column_contains_numeric (.object ["1.2.3"]) = true ∧
    column_contains_numeric (.numeric [1]) = true ∧
    cast_numeric_cols_to_same_data_type (.object ["1.2.3"])
      (.numeric [1]) = none := by
  decide

/-- C6 counterexample: on a column whose only value is the non-empty
unparseable string "garbage", `min_date` and `max_date` raise (the
default `errors="raise"` of `pd.to_datetime`) instead of returning the
empty string the claim promises for unparseable-or-absent columns. -/
theorem C6_unparseable_value_raises :
    min_date c6BadDF "AESTDTC" = .error () ∧
    max_date c6BadDF "AESTDTC" = .error () := by
  decide

/-- C4: whenever `dy` returns, the target and `RFSTDTC` columns parsed
as timestamps, and every result row equals the day difference
`days = target − reference` when negative and `days + 1` otherwise. -/
theorem C4_dy_study_day_rule (df : DataFrame) (target : String)
    (out : List Int) (h : dy df target = .ok out) :
    ∃ ts rs, (df.colVals target).bind seriesMapTS = some ts ∧
      (df.colVals "RFSTDTC").bind seriesMapTS = some rs ∧
      out = List.zipWith
        (fun t r =>
          if Int.fdiv (t - r) 86400 < 0 then Int.fdiv (t - r) 86400
          else Int.fdiv (t - r) 86400 + 1) ts rs := by
  unfold dy at h
  cases h1 : df.colVals target with
  | none => rw [h1] at h; exact absurd h (by simp)
  | some dtcCol =>
    cases h2 : df.colVals "RFSTDTC" with
    | none => rw [h1, h2] at h; exact absurd h (by simp)
    | some rfCol =>
      rw [h1, h2] at h
      dsimp only at h
      cases h3 : seriesMapTS dtcCol with
      | none => rw [h3] at h; exact absurd h (by simp)
      | some ts =>
        cases h4 : seriesMapTS rfCol with
        | none => rw [h3, h4] at h; exact absurd h (by simp)
        | some rs =>
          rw [h3, h4] at h
          dsimp only at h
          refine ⟨ts, rs, h3, h4, ?_⟩
          cases h
          rfl

/-- C4 witness: on concrete rows with the target equal to `RFSTDTC`, one
day before it, and two days after it, `dy` returns 1, −1 and 3. -/
theorem C4_dy_study_day_rule_witness :
    ∃ ts rs, (c4DF.colVals "AESTDTC").bind seriesMapTS = some ts ∧
      (c4DF.colVals "RFSTDTC").bind seriesMapTS = some rs ∧
      [1, -1, 3] = List.zipWith
        (fun t r =>
          if Int.fdiv (t - r) 86400 < 0 then Int.fdiv (t - r) 86400
          else Int.fdiv (t - r) 86400 + 1) ts rs :=
  C4_dy_study_day_rule c4DF "AESTDTC" [1, -1, 3] (by decide)

/-- C6 amended: with an existing target column, `min_date`/`max_date`
return the empty string when every value is ABSENT (null or empty
string), and the ISO-8601 rendering of the extreme parsed timestamp when
parsing succeeds and some value is present; a non-empty unparseable
value, however, raises (see the counterexample). -/
theorem C6_min_max_date_amended (df : DataFrame) (target : String)
    (col : List Val) (hcol : df.colVals target = some col) :
    ((∀ v ∈ col, v = Val.null ∨ v = Val.str "") →
      min_date df target = .ok "" ∧ max_date df target = .ok "") ∧
    (∀ ts m, toDatetimeSeries col = .ok ts →
      listMinInt (ts.filterMap id) = some m →
      min_date df target = .ok (isoformat m)) ∧
    (∀ ts m, toDatetimeSeries col = .ok ts →
      listMaxInt (ts.filterMap id) = some m →
      max_date df target = .ok (isoformat m)) := by
  refine ⟨fun habs => ?_, fun ts m h1 h2 => ?_, fun ts m h1 h2 => ?_⟩
  · have hser : toDatetimeSeries col = .ok (col.map fun _ => none) := by
      clear hcol
      induction col with
      | nil => rfl
      | cons v vs ih =>
        have hv := habs v (by simp)
        have hrest : toDatetimeSeries vs = .ok (vs.map fun _ => none) :=
          ih (fun w hw => habs w (by simp [hw]))
        rcases hv with hv | hv <;>
          simp [hv, toDatetimeSeries, toDatetimeCell, hrest]
    have hnil : (col.map fun _ => (none : Option Int)).filterMap id
        = [] := by
      induction col with
      | nil => rfl
      | cons v vs ih => simp [ih]
    constructor
    · simp [min_date, hcol, hser, hnil, listMinInt]
    · simp [max_date, hcol, hser, hnil, listMaxInt]
  · simp [min_date, hcol, h1, h2]
  · simp [max_date, hcol, h1, h2]

/-- C6 witness: a column of nulls and empty strings yields the empty
string for both extremes, and a column with parsed dates yields the ISO
rendering of the minimal timestamp. -/
theorem C6_min_max_date_amended_witness :
    (min_date c6NullDF "AESTDTC" = .ok "" ∧
      max_date c6NullDF "AESTDTC" = .ok "") ∧
    min_date c6GoodDF "AESTDTC" = .ok (isoformat 1577836800) ∧
    max_date c6GoodDF "AESTDTC" = .ok (isoformat 1577923200) :=
  ⟨(C6_min_max_date_amended c6NullDF "AESTDTC" [.null, .str ""]
      (by decide)).1 (by decide),
    (C6_min_max_date_amended c6GoodDF "AESTDTC"
        [.str "2020-01-02", .str "2020-01-01", .null] (by decide)).2.1
      [some 1577923200, some 1577836800, none] 1577836800 (by decide)
      (by decide),
    (C6_min_max_date_amended c6GoodDF "AESTDTC"
        [.str "2020-01-02", .str "2020-01-01", .null] (by decide)).2.2
      [some 1577923200, some 1577836800, none] 1577923200 (by decide)
      (by decide)⟩

/-- C9 counterexample: with an empty term tree the derived code-hierarchy
index is empty, the truthiness test `if not valid_code_hierarchies`
treats the cached empty index as a miss, and the index is rebuilt from
the term tree on BOTH of two consecutive calls for the same dictionary
path — not "at most once". -/
theorem C9_empty_index_rebuilt_every_call :
    c9Run1.didBuild = true ∧ c9Run2.didBuild = true := by
  decide

/-- C5 amended: `column_contains_numeric` holds exactly for numeric
storage or all-digits-after-stripping values; the cast leaves both
columns untouched when either side fails the rule, and converts both to
float when both qualify AND every value actually parses as a float (a
qualifying value with several decimal points raises instead — see the
counterexample). -/
theorem C5_numeric_reconciliation_amended (c l r : Column) :
    (column_contains_numeric c = true ↔
      (∃ xs, c = Column.numeric xs) ∨
      (∃ ss, c = Column.object ss ∧
        ∀ s ∈ ss, pyIsdigit (stripDots s) = true)) ∧
    (¬(column_contains_numeric l = true ∧
        column_contains_numeric r = true) →
      cast_numeric_cols_to_same_data_type l r = some (l, r)) ∧
    (∀ ls rs, column_contains_numeric l = true →
      column_contains_numeric r = true →
      toFloatColumn l = some ls → toFloatColumn r = some rs →
      cast_numeric_cols_to_same_data_type l r =
        some (Column.numeric ls, Column.numeric rs)) := by
  refine ⟨?_, fun hnot => ?_, fun ls rs h1 h2 h3 h4 => ?_⟩
  · cases c with
    | numeric xs =>
      simp only [column_contains_numeric]
      exact iff_of_true trivial (Or.inl ⟨xs, rfl⟩)
    | object ss =>
      simp only [column_contains_numeric, List.all_eq_true]
      constructor
      · intro hd
        exact Or.inr ⟨ss, rfl, hd⟩
      · rintro (⟨xs, hcontra⟩ | ⟨ss2, heq, hd⟩)
        · exact absurd hcontra (by simp)
        · cases heq
          exact hd
  · have hfalse : (column_contains_numeric l &&
        column_contains_numeric r) = false := by
      cases hl : column_contains_numeric l with
      | false => simp
      | true =>
        cases hr : column_contains_numeric r with
        | false => simp
        | true => exact absurd ⟨hl, hr⟩ hnot
    simp [cast_numeric_cols_to_same_data_type, hfalse]
  · simp [cast_numeric_cols_to_same_data_type, h1, h2, h3, h4]

/-- C5 witness: a non-numeric-looking pair is left untouched, and a
qualifying, clean pair is converted to float on both sides. -/
theorem C5_numeric_reconciliation_amended_witness :
    cast_numeric_cols_to_same_data_type (.object ["1.5x"])
      (.numeric [2]) = some (.object ["1.5x"], .numeric [2]) ∧
    cast_numeric_cols_to_same_data_type (.object ["15"])
      (.numeric [2]) = some (.numeric [15], .numeric [2]) :=
  ⟨(C5_numeric_reconciliation_amended (.numeric []) (.object ["1.5x"])
      (.numeric [2])).2.1 (by decide),
    (C5_numeric_reconciliation_amended (.numeric []) (.object ["15"])
      (.numeric [2])).2.2 [15] [2] (by decide) (by decide) (by decide)
      (by decide)⟩

/-- A fold whose operator can swap its last two arguments is invariant
under permutation of the folded list. -/
theorem foldl_perm_of_right_comm {α β : Type} (f : β → α → β)
    (hf : ∀ b x y, f (f b x) y = f (f b y) x) :
    ∀ {l₁ l₂ : List α}, l₁.Perm l₂ →
      ∀ b, l₁.foldl f b = l₂.foldl f b := by
  intro l₁ l₂ h
  induction h with
  | nil => intro b; rfl
  | cons x _ ih => intro b; simp only [List.foldl_cons]; exact ih _
  | swap x y l => intro b; simp only [List.foldl_cons]; rw [hf]
  | trans _ _ ih₁ ih₂ => intro b; rw [ih₁ b, ih₂ b]

/-- C8: both merge steps of the whole-study scans — the set union of
per-dataset variable sets and the counter summation of per-domain value
counts — give the same result for any ordering of the per-task results,
so the scans are deterministic regardless of task completion order. -/
theorem C8_merge_steps_order_invariant (s₁ s₂ : List (Finset String))
    (c₁ c₂ : List (Val → Nat)) (hs : s₁.Perm s₂) (hc : c₁.Perm c₂) :
    mergeVariableSets s₁ = mergeVariableSets s₂ ∧
      sumCounters c₁ = sumCounters c₂ :=
  ⟨foldl_perm_of_right_comm _
      (fun b x y => Finset.union_right_comm b x y) hs ∅,
    foldl_perm_of_right_comm _
      (fun b x y => by
        funext v
        simp only [addCounter]
        exact Nat.add_right_comm (b v) (x v) (y v)) hc (fun _ => 0)⟩

/-- C8 witness: swapping two per-task results changes neither the merged
variable set nor the merged value counter. -/
theorem C8_merge_steps_order_invariant_witness :
    mergeVariableSets [{"AESEQ"}, {"USUBJID"}] =
      mergeVariableSets [{"USUBJID"}, {"AESEQ"}] ∧
    sumCounters [fun _ => 2, fun _ => 1] =
      sumCounters [fun _ => 1, fun _ => 2] :=
  C8_merge_steps_order_invariant _ _ _ _
    (List.Perm.swap {"USUBJID"} {"AESEQ"} [])
    (List.Perm.swap (fun _ => 1) (fun _ => 2) [])

/-- State left after one `meddraContinue` tail: the cache and build flag
pass through unchanged. -/
theorem meddraContinue_cache_didBuild (df : DataFrame)
    (cs : List String) (fresh : String) (hs : List String)
    (cache : Cache) (b : Bool) :
    (meddraContinue df cs fresh hs cache b).cache = cache ∧
      (meddraContinue df cs fresh hs cache b).didBuild = b := by
  unfold meddraContinue
  cases aggJoinStr df cs <;> simp

/-- C9 amended: when the cache holds a NON-EMPTY derived code-hierarchy
index for the dictionary path, a call reuses it — it does not rebuild
and leaves the cache unchanged; and after a first call builds and stores
a non-empty index from the term tree, a second call for the same path
does not rebuild.  (A cached EMPTY index is treated as absent by the
truthiness test and is rebuilt on every call — see the
counterexample.) -/
theorem C9_index_built_once_amended (df : DataFrame)
    (domain path fresh fresh2 : String) (cache : Cache) :
    (∀ hs, cache ("meddra_valid_code_hierarchies_" ++ path) =
        some (CacheVal.hier hs) → hs ≠ [] →
      (valid_meddra_code_references df domain (some path) cache
          fresh).didBuild = false ∧
      (valid_meddra_code_references df domain (some path) cache
          fresh).cache = cache) ∧
    (∀ t, cache ("meddra_valid_code_hierarchies_" ++ path) = none →
      cache path = some (CacheVal.tree t) →
      get_code_hierarchies t ≠ [] →
      (valid_meddra_code_references df domain (some path) cache
          fresh).didBuild = true ∧
      (valid_meddra_code_references df domain (some path)
          ((valid_meddra_code_references df domain (some path) cache
            fresh).cache) fresh2).didBuild = false) := by
  constructor
  · intro hs hkey hne
    obtain ⟨a, t2, rfl⟩ := List.exists_cons_of_ne_nil hne
    have := meddraContinue_cache_didBuild df
      (codeVariables.map (fun v2 => domain ++ v2)) fresh (a :: t2)
      cache false
    simp only [valid_meddra_code_references, hkey, List.isEmpty_cons]
    exact ⟨this.2, this.1⟩
  · intro t hkey htree hne
    obtain ⟨a, t2, hcons⟩ := List.exists_cons_of_ne_nil hne
    have h1 := meddraContinue_cache_didBuild df
      (codeVariables.map (fun v2 => domain ++ v2)) fresh
      (get_code_hierarchies t)
      (cacheAdd cache ("meddra_valid_code_hierarchies_" ++ path)
        (CacheVal.hier (get_code_hierarchies t))) true
    constructor
    · simp only [valid_meddra_code_references, hkey, htree]
      exact h1.2
    · simp only [valid_meddra_code_references, hkey, htree]
      rw [h1.1]
      simp only [cacheAdd, if_pos rfl, hcons, List.isEmpty_cons]
      exact (meddraContinue_cache_didBuild df
        (codeVariables.map (fun v2 => domain ++ v2)) fresh2 (a :: t2)
        (cacheAdd cache ("meddra_valid_code_hierarchies_" ++ path)
          (CacheVal.hier (a :: t2))) false).2

/-- Looking a key column up after `reorderRow` moved the key cells to
the front finds the value the key-part carries for it. -/
theorem lookupCell_map_front (ks : List String) (f : String → Val)
    (rest : List String) (tail : List Val) (k : String) (hk : k ∈ ks) :
    lookupCell (ks ++ rest) (ks.map f ++ tail) k = some (f k) := by
  induction ks with
  | nil => cases hk
  | cons c cs ih =>
    rcases List.mem_cons.mp hk with h | h
    · subst h
      simp [lookupCell]
    · simp only [List.cons_append, List.map_cons, lookupCell]
      by_cases hc : c = k
      · subst hc; simp
      · rw [if_neg hc]; exact ih h

/-- On a full-length row, every present column has a stored cell. -/
theorem lookupCell_isSome_of_mem (cols : List String) (r : List Val)
    (k : String) (hk : k ∈ cols) (hlen : cols.length ≤ r.length) :
    ∃ v, lookupCell cols r k = some v := by
  induction cols generalizing r with
  | nil => cases hk
  | cons c cs ih =>
    cases r with
    | nil => simp at hlen
    | cons v vs =>
      by_cases hc : c = k
      · exact ⟨v, by simp [lookupCell, hc]⟩
      · rcases List.mem_cons.mp hk with h | h
        · exact absurd h.symm hc
        · obtain ⟨w, hw⟩ := ih vs h
            (by simpa using Nat.succ_le_succ_iff.mp (by simpa using hlen))
          exact ⟨w, by simp [lookupCell, hc, hw]⟩

/-- Dropping key cells skips a leading block made of key cells only. -/
theorem dropKeyCells_append_mem (keys ks : List String)
    (f : String → Val) (rest : List String) (tail : List Val)
    (h : ∀ c ∈ ks, c ∈ keys) :
    dropKeyCells keys (ks ++ rest) (ks.map f ++ tail) =
      dropKeyCells keys rest tail := by
  induction ks with
  | nil => rfl
  | cons c cs ih =>
    simp only [List.cons_append, List.map_cons, dropKeyCells]
    rw [if_pos (h c (by simp))]
    exact ih (fun x hx => h x (by simp [hx]))

/-- Dropping key cells with an empty row yields the empty row. -/
theorem dropKeyCells_nil (keys l : List String) :
    dropKeyCells keys l [] = [] := by
  cases l <;> rfl

/-- Dropping key cells is idempotent along the residual columns. -/
theorem dropKeyCells_restCols (keys cols : List String) (r : List Val) :
    dropKeyCells keys (restCols keys cols) (dropKeyCells keys cols r) =
      dropKeyCells keys cols r := by
  induction cols generalizing r with
  | nil => cases r <;> rfl
  | cons c cs ih =>
    cases r with
    | nil =>
      rw [dropKeyCells_nil, dropKeyCells_nil]
    | cons v vs =>
      by_cases hc : c ∈ keys
      · have e1 : restCols keys (c :: cs) = restCols keys cs := by
          simp [restCols, hc]
        have e2 : dropKeyCells keys (c :: cs) (v :: vs) =
            dropKeyCells keys cs vs := by
          simp [dropKeyCells, hc]
        rw [e1, e2, ih]
      · have e1 : restCols keys (c :: cs) = c :: restCols keys cs := by
          simp [restCols, hc]
        have e2 : dropKeyCells keys (c :: cs) (v :: vs) =
            v :: dropKeyCells keys cs vs := by
          simp [dropKeyCells, hc]
        rw [e1, e2]
        simp [dropKeyCells, hc, ih]

/-- Residual columns skip a leading all-keys block. -/
theorem restCols_append_of_mem (keys ks l : List String)
    (h : ∀ c ∈ ks, c ∈ keys) :
    restCols keys (ks ++ l) = restCols keys l := by
  induction ks with
  | nil => rfl
  | cons c cs ih =>
    simp only [List.cons_append, restCols]
    rw [if_pos (h c (by simp))]
    exact ih (fun x hx => h x (by simp [hx]))

/-- Taking residual columns twice changes nothing. -/
theorem restCols_idem (keys cols : List String) :
    restCols keys (restCols keys cols) = restCols keys cols := by
  induction cols with
  | nil => rfl
  | cons c cs ih =>
    by_cases hc : c ∈ keys
    · simp [restCols, hc, ih]
    · simp [restCols, hc, ih]

/-- C7: the match-key filter is idempotent: applied a second time to its
own output, with the same keys and the same other dataset, it returns
its input unchanged — same rows, same order (and the same,
already-reordered, columns). -/
theorem C7_filter_by_match_keys_idempotent (dataset other : DataFrame)
    (keys okeys : List String)
    (hwf : ∀ r ∈ dataset.rows, r.length = dataset.cols.length)
    (out : DataFrame)
    (h : filter_dataset_by_match_keys_of_other_dataset dataset keys
      other okeys = some out) :
    filter_dataset_by_match_keys_of_other_dataset out keys other okeys
      = some out := by
  unfold filter_dataset_by_match_keys_of_other_dataset at h ⊢
  split at h
  case isFalse => exact absurd h (by simp)
  case isTrue hcond =>
    have hparts := hcond
    rw [Bool.and_eq_true] at hparts
    have hkeys : ∀ k ∈ keys, k ∈ dataset.cols := by
      intro k hk
      exact of_decide_eq_true (List.all_eq_true.mp hparts.1 k hk)
    obtain rfl : (⟨keys ++ restCols keys dataset.cols,
        (dataset.rows.filter (fun r =>
          other.rows.any (fun s =>
            decide (matchTuple dataset.cols r keys =
              matchTuple other.cols s okeys)))).map
          (reorderRow keys dataset.cols)⟩ : DataFrame) = out :=
      Option.some.inj h
    -- the reordered key tuple of a surviving row equals the original one
    have htuple : ∀ r ∈ dataset.rows,
        matchTuple (keys ++ restCols keys dataset.cols)
          (reorderRow keys dataset.cols r) keys =
        matchTuple dataset.cols r keys := by
      intro r hr
      apply List.map_congr_left
      intro k hk
      obtain ⟨v, hv⟩ := lookupCell_isSome_of_mem dataset.cols r k
        (hkeys k hk) (le_of_eq (hwf r hr).symm)
      rw [reorderRow, lookupCell_map_front keys _ _ _ k hk, hv]
      rfl
    -- reordering an already-reordered row changes nothing
    have hrow : ∀ r ∈ dataset.rows,
        reorderRow keys (keys ++ restCols keys dataset.cols)
          (reorderRow keys dataset.cols r) =
        reorderRow keys dataset.cols r := by
      intro r hr
      show (keys.map fun k =>
          (lookupCell (keys ++ restCols keys dataset.cols)
            (reorderRow keys dataset.cols r) k).getD Val.null) ++
        dropKeyCells keys (keys ++ restCols keys dataset.cols)
          (reorderRow keys dataset.cols r) =
        reorderRow keys dataset.cols r
      have e1 : (keys.map fun k =>
          (lookupCell (keys ++ restCols keys dataset.cols)
            (reorderRow keys dataset.cols r) k).getD Val.null) =
          keys.map fun k =>
            (lookupCell dataset.cols r k).getD Val.null := by
        apply List.map_congr_left
        intro k hk
        rw [reorderRow, lookupCell_map_front keys _ _ _ k hk]
        simp
      have e2 : dropKeyCells keys (keys ++ restCols keys dataset.cols)
          (reorderRow keys dataset.cols r) =
          dropKeyCells keys dataset.cols r := by
        rw [reorderRow,
          dropKeyCells_append_mem keys keys _ _ _ (fun c hc => hc),
          dropKeyCells_restCols]
      rw [e1, e2]
      rfl
    -- every surviving, reordered row still passes the membership test
    have hfilter2 : ((dataset.rows.filter (fun r =>
        other.rows.any (fun s =>
          decide (matchTuple dataset.cols r keys =
            matchTuple other.cols s okeys)))).map
          (reorderRow keys dataset.cols)).filter
        (fun r2 => other.rows.any (fun s =>
          decide (matchTuple (keys ++ restCols keys dataset.cols) r2
            keys = matchTuple other.cols s okeys))) =
        (dataset.rows.filter (fun r =>
          other.rows.any (fun s =>
            decide (matchTuple dataset.cols r keys =
              matchTuple other.cols s okeys)))).map
          (reorderRow keys dataset.cols) := by
      apply List.filter_eq_self.mpr
      intro r2 hr2
      obtain ⟨r, hrmem, rfl⟩ := List.mem_map.mp hr2
      have hr := List.mem_filter.mp hrmem
      have hfun : (fun s => decide (matchTuple
          (keys ++ restCols keys dataset.cols)
          (reorderRow keys dataset.cols r) keys =
            matchTuple other.cols s okeys)) = fun s =>
          decide (matchTuple dataset.cols r keys =
            matchTuple other.cols s okeys) :=
        funext (fun s => by rw [htuple r hr.1])
      rw [hfun]
      exact hr.2
    -- re-reordering all surviving rows changes nothing
    have hmap2 : ((dataset.rows.filter (fun r =>
        other.rows.any (fun s =>
          decide (matchTuple dataset.cols r keys =
            matchTuple other.cols s okeys)))).map
          (reorderRow keys dataset.cols)).map
        (reorderRow keys (keys ++ restCols keys dataset.cols)) =
        (dataset.rows.filter (fun r =>
          other.rows.any (fun s =>
            decide (matchTuple dataset.cols r keys =
              matchTuple other.cols s okeys)))).map
          (reorderRow keys dataset.cols) := by
      rw [List.map_map]
      apply List.map_congr_left
      intro r hrmem
      simp only [Function.comp_apply]
      exact hrow r (List.mem_filter.mp hrmem).1
    have hcols2 : keys ++
        restCols keys (keys ++ restCols keys dataset.cols) =
        keys ++ restCols keys dataset.cols := by
      rw [restCols_append_of_mem keys keys _ (fun c hc => hc),
        restCols_idem]
    have hguard2 : ((keys.all fun k =>
        decide (k ∈ keys ++ restCols keys dataset.cols)) &&
        okeys.all fun k => decide (k ∈ other.cols)) = true := by
      rw [Bool.and_eq_true]
      exact ⟨List.all_eq_true.mpr (fun k hk =>
        decide_eq_true (List.mem_append_left _ hk)), hparts.2⟩
    dsimp only
    rw [if_pos hguard2, hfilter2, hmap2, hcols2]

/-- C7 witness: one pass keeps only the matching subject and moves the
key column to the front; the second pass returns that output
unchanged. -/
theorem C7_filter_by_match_keys_idempotent_witness :
    filter_dataset_by_match_keys_of_other_dataset c7Out ["USUBJID"]
      c7Other ["USUBJID"] = some c7Out :=
  C7_filter_by_match_keys_idempotent c7DS c7Other ["USUBJID"]
    ["USUBJID"] (by decide) c7Out (by decide)

/-- C9 witness: against a cache already holding a non-empty derived
index for the path, the operation does not rebuild and leaves the cache
unchanged. -/
theorem C9_index_built_once_amended_witness :
    (valid_meddra_code_references c3DF "AE" (some "meddra") c9WCache
        "u").didBuild = false ∧
    (valid_meddra_code_references c3DF "AE" (some "meddra") c9WCache
        "u").cache = c9WCache :=
  (C9_index_built_once_amended c3DF "AE" "meddra" "u" "u2"
      c9WCache).1 ["10/20/30/40/50"] rfl (by simp)

/-- C10: whenever the relationship merge returns, the parent-side join
column was resolved SOLELY from row index 0 of the child's name column:
the result is the outer join (after numeric coercion) on that single
column, and every parent/child row pair agreeing on it — including child
rows whose own name-column value names a different parent column — is
joined into the output. -/
theorem C10_merge_resolves_column_from_first_row
    (left right : DataFrame) (dom n v : String) (out : DataFrame)
    (h : merge_datasets_on_relationship_columns left right dom n v =
      .ok out) :
    ∃ s names cast,
      right.colVals n = some names ∧
      names.head? = some (Val.str s) ∧
      dfCastNumericCols right v left s = some cast ∧
      out = outerJoin cast.2 cast.1 s v ("." ++ dom) ∧
      ∀ l ∈ cast.2.rows, ∀ r ∈ cast.1.rows,
        lookupCell cast.2.cols l s = lookupCell cast.1.cols r v →
        l ++ r ∈ out.rows := by
  unfold merge_datasets_on_relationship_columns at h
  cases h1 : right.colVals n with
  | none => rw [h1] at h; exact absurd h (by simp)
  | some names =>
    rw [h1] at h
    dsimp only at h
    cases h2 : names.head? with
    | none => rw [h2] at h; exact absurd h (by simp)
    | some w =>
      rw [h2] at h
      cases w with
      | str s =>
        dsimp only at h
        cases h3 : dfCastNumericCols right v left s with
        | none => rw [h3] at h; exact absurd h (by simp)
        | some cast =>
          rw [h3] at h
          dsimp only at h
          obtain rfl : outerJoin cast.2 cast.1 s v ("." ++ dom) =
              out := Except.ok.inj h
          refine ⟨s, names, cast, rfl, h2, h3, rfl, ?_⟩
          intro l hl r hr heq
          show l ++ r ∈ (outerJoin cast.2 cast.1 s v
            ("." ++ dom)).rows
          unfold outerJoin
          dsimp only
          apply List.mem_append_left
          apply List.mem_flatten.mpr
          refine ⟨(fun lrow =>
            let ms := cast.1.rows.filter (fun rrow =>
              decide (lookupCell cast.2.cols lrow s =
                lookupCell cast.1.cols rrow v))
            if ms.isEmpty then
              [lrow ++ List.replicate cast.1.cols.length Val.null]
            else ms.map (fun rrow => lrow ++ rrow)) l,
            List.mem_map_of_mem _ hl, ?_⟩
          have hrm : r ∈ cast.1.rows.filter (fun rrow =>
              decide (lookupCell cast.2.cols l s =
                lookupCell cast.1.cols rrow v)) :=
            List.mem_filter.mpr ⟨hr, decide_eq_true heq⟩
          dsimp only
          cases hms : cast.1.rows.filter (fun rrow =>
              decide (lookupCell cast.2.cols l s =
                lookupCell cast.1.cols rrow v)) with
          | nil => exact absurd (hms ▸ hrm) (List.not_mem_nil r)
          | cons a t =>
            rw [hms] at hrm
            simp only [List.isEmpty_cons, if_neg Bool.false_ne_true]
            exact List.mem_map_of_mem _ hrm
      | num q => exact absurd h (by simp)
      | null => exact absurd h (by simp)

/-- C10 witness: on a child whose name column holds the two distinct
names AESEQ and USUBJID, the merge joins on AESEQ (the row-0 name)
alone, pairing the parent row with the child row whose coerced value
matches it and null-padding the other child row. -/
theorem C10_merge_resolves_column_from_first_row_witness :
    ∃ s names cast,
      c10Right.colVals "IDVAR" = some names ∧
      names.head? = some (Val.str s) ∧
      dfCastNumericCols c10Right "IDVARVAL" c10Left s = some cast ∧
      c10Out = outerJoin cast.2 cast.1 s "IDVARVAL" ("." ++ "SUPPAE") ∧
      ∀ l ∈ cast.2.rows, ∀ r ∈ cast.1.rows,
        lookupCell cast.2.cols l s = lookupCell cast.1.cols r
          "IDVARVAL" → l ++ r ∈ c10Out.rows :=
  C10_merge_resolves_column_from_first_row c10Left c10Right "SUPPAE"
    "IDVAR" "IDVARVAL" c10Out (by decide)

end DataProcessor
